import Mathlib

/-
Shallow embedding of the Evidence-of-Pubmed core pipeline
(src/services/pubmedService.ts, src/types.ts and the App component).
Network responses are modelled as explicit parameters; a JavaScript throw
is modelled as the error branch of Except.
-/

set_option maxRecDepth 4000

/-- JS expression a or b for strings: the empty string is falsy. -/
def jsOrString (a b : String) : String :=
  if a = "" then b else a

/-- JS truthiness check plus conversion of an optional list field. -/
def jsArr {α : Type} (o : Option (List α)) : List α :=
  match o with
  | some l => l
  | none => []

/- ===== 4.1 Resilient fetch layer: fetchWithRetry ===== -/

/-- One attempt of the underlying fetch: either a response with an HTTP
status code, or a network-level throw. -/
inductive Attempt where
  | resp (status : Nat)
  | netThrow
deriving DecidableEq

/-- The error surfaced by fetchWithRetry: the thrown
"NCBI API failed: status" Error, or the propagated network error. -/
inductive FetchErr where
  | http (status : Nat)
  | network
deriving DecidableEq

/-- Observable outcome of a fetchWithRetry call: the result, the number of
fetch attempts performed, and the number of 1000 ms backoff sleeps. -/
structure RetryRun where
  result : Except FetchErr Nat
  attempts : Nat
  sleeps : Nat

/-- Response.ok per the fetch specification: status in 200..299. -/
def resOk (status : Nat) : Bool :=
  200 ≤ status && status < 300

/-- Wrap a recursive run: one more fetch attempt and one more sleep. -/
def retryStep (r : RetryRun) : RetryRun :=
  { result := r.result, attempts := r.attempts + 1, sleeps := r.sleeps + 1 }

/-- fetchWithRetry (pubmedService.ts lines 8-26). behav idx is the outcome
of the idx-th fetch call. Note the source control flow: on a non-ok
response whose status is neither 429 nor ≥ 500 the code throws
`Error("NCBI API failed: status")` from inside the try block, so the
throw is caught by the surrounding catch, which sleeps and retries
whenever retries > 0. The status test therefore does not change behaviour. -/
def fetchWithRetry (behav : Nat → Attempt) : Nat → Nat → RetryRun
  | idx, 0 =>
    match behav idx with
    | .resp s =>
      if resOk s then { result := .ok s, attempts := 1, sleeps := 0 }
      else { result := .error (.http s), attempts := 1, sleeps := 0 }
    | .netThrow => { result := .error .network, attempts := 1, sleeps := 0 }
  | idx, r + 1 =>
    match behav idx with
    | .resp s =>
      if resOk s then { result := .ok s, attempts := 1, sleeps := 0 }
      else if s = 429 || 500 ≤ s then
        -- transient branch of the source
        retryStep (fetchWithRetry behav (idx + 1) r)
      else
        -- non-transient: the thrown Error is caught by the catch block,
        -- which retries because retries > 0
        retryStep (fetchWithRetry behav (idx + 1) r)
    | .netThrow => retryStep (fetchWithRetry behav (idx + 1) r)

/- ===== Data model (types.ts) ===== -/

/-- PubMedArticle (types.ts lines 8-18). Optional fields model the
TypeScript optional properties; fullText none models null/undefined. -/
structure Article where
  id : String
  pmid : String
  title : String
  titleJa : Option String := none
  authors : String
  journal : String
  pubdate : String
  abstract : Option String := none
  fullText : Option String := none
deriving DecidableEq

/-- ProcessStatus (types.ts lines 25-30). -/
inductive ProcessStatus where
  | idle
  | loading
  | success
  | error
deriving DecidableEq

/- ===== Association maps with JS-object semantics =====
A Record<string, string> is modelled as a list of key-value pairs in
first-insertion order; assignment overwrites in place. -/

/-- Lookup in a JS-object map. -/
def alookup : List (String × String) → String → Option String
  | [], _ => none
  | (k, v) :: m, key => if k = key then some v else alookup m key

/-- JS object assignment obj key = v: overwrite in place or append. -/
def upsert : List (String × String) → String → String → List (String × String)
  | [], k, v => [(k, v)]
  | (k0, v0) :: m, k, v =>
    if k0 = k then (k0, v) :: m else (k0, v0) :: upsert m k v

/-- JS expression m k or d over a Record lookup (missing key and the
empty string are both falsy). -/
def jsIndexOr (m : List (String × String)) (k d : String) : String :=
  match alookup m k with
  | some v => if v = "" then d else v
  | none => d

/-- JS expression m k or null over a Record lookup. -/
def jsIndexOrNull (m : List (String × String)) (k : String) : Option String :=
  match alookup m k with
  | some v => if v = "" then none else some v
  | none => none

/- ===== 4.3 Summary accessor: fetchSummary ===== -/

/-- One record in the esummary JSON: the fields the code reads.
The authors field may be absent (the code guards with optional chaining). -/
structure SummaryData where
  title : String
  authors : Option (List String)
  source : String
  pubdate : String

/-- Record built for one id (pubmedService.ts lines 51-58).
The empty join of zero authors is falsy and also yields the fallback. -/
def mkSummaryArticle (id : String) (d : SummaryData) : Article :=
  { id := id
    pmid := id
    title := d.title
    authors :=
      match d.authors with
      | some names => jsOrString (String.intercalate ", " names) "Unknown Authors"
      | none => "Unknown Authors"
    journal := d.source
    pubdate := d.pubdate }

/-- The ids.map callback of fetchSummary: reading a field of an undefined
record (an id missing from data.result) throws a TypeError, which aborts
the whole map; modelled by the error branch. -/
def summaryMap (result : String → Option SummaryData) : List String → Except Unit (List Article)
  | [] => .ok []
  | id :: ids =>
    match result id with
    | none => .error ()
    | some d =>
      match summaryMap result ids with
      | .error e => .error e
      | .ok rest => .ok (mkSummaryArticle id d :: rest)

/-- fetchSummary (pubmedService.ts lines 43-60). The first component
counts fetch-layer calls issued; resp models the outcome of the single
batched request (error = fetchWithRetry or res.json() threw; ok gives
the data.result lookup). -/
def fetchSummary (ids : List String) (resp : Except Unit (String → Option SummaryData)) :
    Nat × Except Unit (List Article) :=
  if ids.length = 0 then (0, .ok [])
  else
    (1, match resp with
        | .error e => .error e
        | .ok result => summaryMap result ids)

/- ===== 4.4 Abstract accessor: fetchAbstracts ===== -/

/-- One AbstractText node: optional Label attribute and text content. -/
structure AbstractSeg where
  label : Option String
  text : String

/-- One PubmedArticle node of the efetch XML. pmid is
querySelector("PMID")?.textContent or "" already applied. -/
structure ArticleNode where
  pmid : String
  segs : List AbstractSeg

/-- The abstract += step of the querySelectorAll loop
(pubmedService.ts line 75). -/
def renderSeg (acc : String) (seg : AbstractSeg) : String :=
  acc ++ (match seg.label with
          | some l => "[" ++ l ++ "] "
          | none => "") ++ seg.text ++ " "

/-- JS String.prototype.trim: strip whitespace from both ends. -/
def jsTrim (s : String) : String :=
  ⟨(((s.data.dropWhile Char.isWhitespace).reverse.dropWhile Char.isWhitespace).reverse)⟩

/-- The value stored for one node: the concatenated segments, trimmed,
with the unavailable sentinel replacing an empty result (line 77). -/
def nodeAbstract (node : ArticleNode) : String :=
  jsOrString (jsTrim (node.segs.foldl renderSeg "")) "No abstract available."

/-- The forEach loop over PubmedArticle nodes building the results object. -/
def buildAbsMap (nodes : List ArticleNode) : List (String × String) :=
  nodes.foldl (fun results node => upsert results node.pmid (nodeAbstract node)) []

/-- fetchAbstracts (pubmedService.ts lines 62-80); resp is the outcome of
the single batched request after XML parsing. -/
def fetchAbstracts (ids : List String) (resp : Except Unit (List ArticleNode)) :
    Nat × Except Unit (List (String × String)) :=
  if ids.length = 0 then (0, .ok [])
  else
    (1, match resp with
        | .error e => .error e
        | .ok nodes => .ok (buildAbsMap nodes))

/- ===== 4.5 Full-text resolver: fetchFullText ===== -/

/-- One linksetdb of the elink JSON used by fetchFullText. -/
structure FtDb where
  links : Option (List String)

/-- One linkset of the elink JSON. -/
structure FtLinkSet where
  linksetdbs : Option (List FtDb)

/-- The elink JSON body. -/
structure FtLinkData where
  linksets : Option (List FtLinkSet)

/-- The optional chain linkData.linksets?.[0]?.linksetdbs?.[0]?.links?.[0]
(pubmedService.ts line 90). -/
def ftFirstLink (d : FtLinkData) : Option String :=
  match d.linksets with
  | some (ls :: _) =>
    match ls.linksetdbs with
    | some (db :: _) =>
      match db.links with
      | some (l :: _) => some l
      | _ => none
    | _ => none
  | _ => none

/-- The parsed PMC efetch document: body none models "no body node";
textContent of an element node is always a string. -/
structure PmcDoc where
  body : Option String

/-- The two network hops of one fetchFullText call: the elink response for
the given pmid and the PMC efetch response as a function of the pmcid. -/
structure FullTextEnv where
  linkResp : Except Unit FtLinkData
  pmcResp : String → Except Unit PmcDoc

/-- JS String.prototype.replace with a one-or-more-whitespace pattern and a
single-space replacement: each maximal whitespace run becomes one space.
The flag records whether the previous character was inside a run. -/
def collapseAux : Bool → List Char → List Char
  | _, [] => []
  | prevWs, c :: cs =>
    if c.isWhitespace then
      if prevWs then collapseAux true cs else ' ' :: collapseAux true cs
    else c :: collapseAux false cs

/-- Whitespace collapse lifted to strings. -/
def collapseWs (s : String) : String :=
  ⟨collapseAux false s.data⟩

/-- JS substring(0, n): the first n characters. -/
def jsSubstring (s : String) (n : Nat) : String :=
  ⟨s.data.take n⟩

/-- fetchFullText (pubmedService.ts lines 82-109). The try/catch converts
any exception in either hop to null; a falsy (empty) first link leaves
pmcid null. -/
def fetchFullText (env : FullTextEnv) : Option String :=
  match env.linkResp with
  | .error _ => none
  | .ok linkData =>
    let pmcid : Option String :=
      match ftFirstLink linkData with
      | some l => if l = "" then none else some ("PMC" ++ l)
      | none => none
    match pmcid with
    | none => none
    | some pmcid =>
      match env.pmcResp pmcid with
      | .error _ => none
      | .ok doc =>
        match doc.body with
        | none => none
        | some text =>
          some ("[FULL TEXT FROM " ++ pmcid ++ "]\n" ++ jsSubstring (collapseWs text) 10000)

/- ===== 4.6 Reference resolver: fetchReferences ===== -/

/-- One linksetdb of the elink JSON used by fetchReferences. -/
structure RefDb where
  linkname : String
  links : Option (List String)

/-- One linkset of the elink JSON. -/
structure RefLinkSet where
  linksetdbs : Option (List RefDb)

/-- The elink JSON body. -/
structure ElinkRefData where
  linksets : Option (List RefLinkSet)

/-- Set.add with Array.from insertion order. -/
def addToSet (st : List String) (x : String) : List String :=
  if st.contains x then st else st ++ [x]

/-- The inner forEach body (pubmedService.ts lines 121-126): for a db with
the reference linkname and a links array, add the first 3 links. -/
def addLinks (acc : List String) (db : RefDb) : List String :=
  if db.linkname = "pubmed_pubmed_refs" then
    match db.links with
    | some links => (links.take 3).foldl addToSet acc
    | none => acc
  else acc

/-- The per-linkset forEach (lines 120-127). -/
def addLinkSet (acc : List String) (ls : RefLinkSet) : List String :=
  match ls.linksetdbs with
  | some dbs => dbs.foldl addLinks acc
  | none => acc

/-- The refIds Set accumulation (lines 117-128). -/
def collectRefs (data : ElinkRefData) : List String :=
  match data.linksets with
  | some lss => lss.foldl addLinkSet []
  | none => []

/-- fetchReferences (pubmedService.ts lines 111-130); resp is the outcome
of the single batched elink request. -/
def fetchReferences (pmids : List String) (resp : Except Unit ElinkRefData) :
    Nat × Except Unit (List String) :=
  if pmids.length = 0 then (0, .ok [])
  else
    (1, match resp with
        | .error e => .error e
        | .ok data => .ok (collectRefs data))

/- ===== 4.7 Enrichment orchestrator: handleDeepReview (App component) ===== -/

/-- Provider behaviours for one run: the responses the accessors would see
for a given identifier list, the two full-text hops per pmid, and the
synthesis collaborator. -/
structure Env where
  abstractsResp : List String → Except Unit (List ArticleNode)
  summaryResp : List String → Except Unit (String → Option SummaryData)
  refsResp : List String → Except Unit ElinkRefData
  fullTextHops : String → FullTextEnv
  review : String → List Article → List Article → Except Unit String

/-- The component state touched or read by handleDeepReview. -/
structure AppState where
  inputText : String
  translatedText : String
  articles : List Article
  selectedArticleIds : List String
  reviewStatus : ProcessStatus
  statusMessage : String
  reportOutput : String
deriving DecidableEq

/-- The generic user-facing message set by the catch block (line 135). -/
def genericErrorMsg : String :=
  "An error occurred during synthesis. Please check the console for details."

/-- Observable trace of one run: which pmids had full-text resolution
attempted, which reference ids were taken for enrichment, and the
lightly-enriched reference records that were built. -/
structure RunLog where
  fullTextAttempted : List String := []
  refIdsEnriched : List String := []
  refData : List Article := []
deriving DecidableEq

/-- The full-text loop (lines 101-105): sequential, one call per selected
pmid, storing only truthy results. -/
def buildFullTexts (ft : String → Option String) (ids : List String) :
    List (String × String) :=
  ids.foldl
    (fun m pmid =>
      match ft pmid with
      | some text => if text = "" then m else upsert m pmid text
      | none => m)
    []

/-- refData construction (lines 114-117): spread the summary record and
set abstract from the reference abstracts map. -/
def buildRefData (refSummaries : List Article) (refAbs : List (String × String)) :
    List Article :=
  refSummaries.map (fun s => { s with abstract := some (jsIndexOr refAbs s.id "") })

/-- selectedData construction (lines 121-127): filter the article list by
the selected-id set and attach the abstract and full text fetched under
the same identifier. -/
def mergeSelected (articles : List Article) (sel : List String)
    (abstracts fullTexts : List (String × String)) : List Article :=
  (articles.filter (fun a => sel.contains a.id)).map
    (fun a =>
      { a with
        abstract := some (jsIndexOr abstracts a.id "")
        fullText := jsIndexOrNull fullTexts a.id })

/-- Tail of the try block from the synthesis status message on
(lines 120-131). -/
def deepReviewFinish (env : Env) (s : AppState) (log : RunLog)
    (abstracts fullTexts : List (String × String)) (refData : List Article) :
    Except (AppState × RunLog) (AppState × RunLog) :=
  let s := { s with statusMessage := "Gemini is synthesizing report..." }
  let selectedData := mergeSelected s.articles s.selectedArticleIds abstracts fullTexts
  match env.review (jsOrString s.translatedText s.inputText) selectedData refData with
  | .error _ => .error (s, log)
  | .ok report =>
    .ok ({ s with reportOutput := report, reviewStatus := .success }, log)

/-- The try block of handleDeepReview (lines 94-131). An error value is a
thrown exception, carrying the component state already committed (status
messages persist) and the trace so far. -/
def deepReviewTry (env : Env) (s : AppState) :
    Except (AppState × RunLog) (AppState × RunLog) :=
  let ids := s.selectedArticleIds
  let s := { s with statusMessage := "Retrieving abstracts..." }
  match (fetchAbstracts ids (env.abstractsResp ids)).2 with
  | .error _ => .error (s, {})
  | .ok abstracts =>
    let s := { s with statusMessage := "Attempting full text retrieval (PMC)..." }
    let fullTexts := buildFullTexts (fun pmid => fetchFullText (env.fullTextHops pmid)) ids
    let log : RunLog := { fullTextAttempted := ids }
    let s := { s with statusMessage := "Analyzing citation network..." }
    match (fetchReferences ids (env.refsResp ids)).2 with
    | .error _ => .error (s, log)
    | .ok refIds =>
      if refIds.length > 0 then
        let topRefs := refIds.take 8
        let log := { log with refIdsEnriched := topRefs }
        match (fetchSummary topRefs (env.summaryResp topRefs)).2 with
        | .error _ => .error (s, log)
        | .ok refSummaries =>
          match (fetchAbstracts topRefs (env.abstractsResp topRefs)).2 with
          | .error _ => .error (s, log)
          | .ok refAbs =>
            let refData := buildRefData refSummaries refAbs
            let log := { log with refData := refData }
            deepReviewFinish env s log abstracts fullTexts refData
      else
        deepReviewFinish env s log abstracts fullTexts []

/-- handleDeepReview (App component lines 90-137): the guard returns on an
empty selection; otherwise status goes to loading, the try block runs,
and the catch block sets the error status and the generic message. -/
def handleDeepReview (env : Env) (s0 : AppState) : AppState × RunLog :=
  if s0.selectedArticleIds.length = 0 then (s0, {})
  else
    let s1 := { s0 with reviewStatus := .loading }
    match deepReviewTry env s1 with
    | .ok (s, log) => (s, log)
    | .error (s, log) =>
      ({ s with reviewStatus := .error, reportOutput := genericErrorMsg }, log)

/-- The disabled condition of the Synthesize Evidence control
(App component line 366). -/
def deepReviewButtonDisabled (s : AppState) : Bool :=
  s.reviewStatus = ProcessStatus.loading || s.selectedArticleIds.length = 0

/-- Initiation through the UI control: a disabled control fires no click,
so the state is untouched; otherwise the click invokes handleDeepReview. -/
def deepReviewButtonClick (env : Env) (s : AppState) : AppState × RunLog :=
  if deepReviewButtonDisabled s then (s, {}) else handleDeepReview env s

/- ===== Derived views used by the theorems ===== -/

/-- The trace of a try-block outcome (both constructors carry it). -/
def runLogOf (r : Except (AppState × RunLog) (AppState × RunLog)) : RunLog :=
  match r with
  | .ok (_, log) => log
  | .error (_, log) => log

/-- The references one db contributes before deduplication: its first 3
links when it carries the reference linkname. -/
def contribDb (acc : List String) (db : RefDb) : List String :=
  if db.linkname = "pubmed_pubmed_refs" then
    match db.links with
    | some links => acc ++ links.take 3
    | none => acc
  else acc

/-- The raw (pre-deduplication) contribution of one source linkset. -/
def sourceRefContrib (ls : RefLinkSet) : List String :=
  match ls.linksetdbs with
  | some dbs => dbs.foldl contribDb []
  | none => []

/-- How many dbs of a linkset carry the reference linkname. -/
def numRefDbs (ls : RefLinkSet) : Nat :=
  match ls.linksetdbs with
  | some dbs => (dbs.filter (fun db => db.linkname = "pubmed_pubmed_refs")).length
  | none => 0

/-- Deduplication in first-occurrence order (the Set / Array.from pair). -/
def dedup (l : List String) : List String :=
  l.foldl addToSet []

/-- All per-source contributions of a response, concatenated. -/
def allRefContribs (data : ElinkRefData) : List String :=
  (List.map sourceRefContrib (jsArr data.linksets)).flatten

/- ===== Concrete inputs used by witnesses and counterexamples ===== -/

/-- An environment in which every provider request fails. -/
def envAllErr : Env :=
  { abstractsResp := fun _ => .error ()
    summaryResp := fun _ => .error ()
    refsResp := fun _ => .error ()
    fullTextHops := fun _ => { linkResp := .error (), pmcResp := fun _ => .error () }
    review := fun _ _ _ => .error () }

/-- An idle session with one selected article. -/
def demoState : AppState :=
  { inputText := "q"
    translatedText := ""
    articles := []
    selectedArticleIds := ["1"]
    reviewStatus := .idle
    statusMessage := ""
    reportOutput := "" }

/-- The same session while its pipeline is in flight. -/
def inFlightState : AppState :=
  { demoState with reviewStatus := .loading }

/-- A parsed abstract response with one document node. -/
def demoNodes : List ArticleNode :=
  [{ pmid := "1", segs := [{ label := some "BACKGROUND", text := "text" }] }]

/-- A summary provider that answers every identifier. -/
def demoSummaryResult : String → Option SummaryData :=
  fun _ => some { title := "T", authors := some ["A"], source := "J", pubdate := "2024" }

/-- A bibliographic shell as fetchSummary would build it. -/
def demoArticle : Article :=
  { id := "1", pmid := "1", title := "T", authors := "A", journal := "J", pubdate := "2024" }

/-- The demo article after the orchestrator merge. -/
def demoMerged : Article :=
  { demoArticle with abstract := some "abs", fullText := none }

/-- An elink response in which a single source linkset carries two dbs with
the reference linkname, three links each. -/
def refsTwoDbData : ElinkRefData :=
  { linksets := some
      [{ linksetdbs := some
          [{ linkname := "pubmed_pubmed_refs", links := some ["1", "2", "3"] },
           { linkname := "pubmed_pubmed_refs", links := some ["4", "5", "6"] }] }] }

/-- A linkset with a single reference db holding five raw links. -/
def refsDemoLs : RefLinkSet :=
  { linksetdbs := some
      [{ linkname := "pubmed_pubmed_refs", links := some ["1", "2", "3", "4", "5"] }] }

/-- An elink response with the single linkset refsDemoLs. -/
def refsDemoData : ElinkRefData :=
  { linksets := some [refsDemoLs] }

/- ===== Claim theorems ===== -/

/-- C1. The claim says a non-transient failure status (not 429 and below
500) makes fetchWithRetry fail immediately, with no further fetch attempt
and no backoff sleep. The code instead throws the Error from inside its
own try block, so the catch clause retries any failure while budget
remains: with the default budget of 3 and a provider that always answers
404, the code performs 4 fetch attempts and 3 backoff sleeps before
surfacing the 404 failure. -/
theorem fetchWithRetry_nontransient_still_retries :
    fetchWithRetry (fun _ => Attempt.resp 404) 0 3 =
      { result := Except.error (FetchErr.http 404), attempts := 4, sleeps := 3 } := by
  rfl

/-- C4. fetchFullText never raises: for every behaviour of the two upstream
hops it returns either none (in particular on a hop exception, a missing or
falsy alternate-repository link, or a missing body node) or a string that
is the provenance marker naming the alternate identifier followed by the
whitespace-collapsed body truncated to at most 10000 characters. -/
theorem fetchFullText_absence_or_bounded (env : FullTextEnv) :
    fetchFullText env = none ∨
    ∃ l t,
      fetchFullText env =
        some ("[FULL TEXT FROM " ++ ("PMC" ++ l) ++ "]\n" ++
          jsSubstring (collapseWs t) 10000) ∧
      (jsSubstring (collapseWs t) 10000).length ≤ 10000 := by
  have hlen : ∀ (s : String) (n : Nat), (jsSubstring s n).length ≤ n := by
    intro s n
    have h : (jsSubstring s n).length = (s.data.take n).length := rfl
    rw [h, List.length_take]
    exact Nat.min_le_left _ _
  unfold fetchFullText
  cases hl : env.linkResp with
  | error e => exact Or.inl rfl
  | ok linkData =>
    dsimp only
    cases hf : ftFirstLink linkData with
    | none => exact Or.inl rfl
    | some l =>
      dsimp only
      by_cases hempty : l = ""
      · rw [if_pos hempty]
        exact Or.inl rfl
      · rw [if_neg hempty]
        dsimp only
        cases hp : env.pmcResp ("PMC" ++ l) with
        | error e => exact Or.inl rfl
        | ok doc =>
          dsimp only
          cases hb : doc.body with
          | none => exact Or.inl rfl
          | some t => exact Or.inr ⟨l, t, rfl, hlen _ _⟩

/-- C9. On the empty identifier list fetchSummary returns the empty list,
fetchAbstracts the empty mapping and fetchReferences the empty list, each
issuing zero fetch-layer calls, for every provider behaviour. -/
theorem empty_ids_no_network_call
    (sresp : Except Unit (String → Option SummaryData))
    (aresp : Except Unit (List ArticleNode))
    (rresp : Except Unit ElinkRefData) :
    fetchSummary [] sresp = (0, Except.ok []) ∧
    fetchAbstracts [] aresp = (0, Except.ok []) ∧
    fetchReferences [] rresp = (0, Except.ok []) :=
  ⟨rfl, rfl, rfl⟩

/-- C3. If any non-best-effort stage of the pipeline throws (the try block
of handleDeepReview evaluates to an exception), the final review status is
ERROR and the report output is exactly the fixed generic user-facing
message — in particular no report built from the partially completed
phases is exposed, since the catch block overwrites the output with the
constant string. -/
theorem handleDeepReview_stage_failure_fails (env : Env) (s0 : AppState)
    (hsel : ¬ s0.selectedArticleIds.length = 0) (s : AppState) (log : RunLog)
    (herr : deepReviewTry env { s0 with reviewStatus := .loading } = .error (s, log)) :
    (handleDeepReview env s0).1.reviewStatus = ProcessStatus.error ∧
    (handleDeepReview env s0).1.reportOutput = genericErrorMsg := by
  unfold handleDeepReview
  rw [if_neg hsel]
  dsimp only
  rw [herr]
  exact ⟨rfl, rfl⟩

/-- C3 witness: in the always-failing environment the abstract stage throws
and the run ends in ERROR with the generic message. -/
theorem handleDeepReview_stage_failure_fails_witness :
    (handleDeepReview envAllErr demoState).1.reviewStatus = ProcessStatus.error ∧
    (handleDeepReview envAllErr demoState).1.reportOutput = genericErrorMsg :=
  handleDeepReview_stage_failure_fails envAllErr demoState (by decide)
    { demoState with
        reviewStatus := .loading
        statusMessage := "Retrieving abstracts..." }
    {} (by rfl)

/-- C5 counterexample. The claim says a second invocation of the
orchestrator entry point while the phase is in flight performs no phase
work and leaves the state unchanged. Invoking handleDeepReview on a state
whose reviewStatus is loading (a pipeline in flight) with a non-empty
selection runs the phases anyway: the status message is overwritten with
the first phase message and the state changes — the guard in the entry
point checks only for an empty selection, not the phase. -/
theorem handleDeepReview_reentry_performs_work :
    (handleDeepReview envAllErr inFlightState).1.statusMessage =
      "Retrieving abstracts..." ∧
    inFlightState.statusMessage = "" ∧
    (handleDeepReview envAllErr inFlightState).1 ≠ inFlightState := by
  refine ⟨rfl, rfl, ?_⟩
  decide

/-- C5 amended. The rejection of a second initiation while running lives in
the presentation layer: the synthesis control is disabled whenever the
phase is loading (keyed on the phase value), so initiation through the
control leaves the state untouched while a pipeline is in flight. -/
theorem deepReviewButtonClick_loading_ignored (env : Env) (s : AppState)
    (h : s.reviewStatus = ProcessStatus.loading) :
    deepReviewButtonClick env s = (s, {}) := by
  simp [deepReviewButtonClick, deepReviewButtonDisabled, h]

/-- C5 amended witness: the in-flight session ignores a click. -/
theorem deepReviewButtonClick_loading_ignored_witness :
    deepReviewButtonClick envAllErr inFlightState = (inFlightState, {}) :=
  deepReviewButtonClick_loading_ignored envAllErr inFlightState rfl

/-- The synthesis tail never changes the accumulated trace. -/
theorem runLogOf_deepReviewFinish (env : Env) (s : AppState) (log : RunLog)
    (abstracts fullTexts : List (String × String)) (refData : List Article) :
    runLogOf (deepReviewFinish env s log abstracts fullTexts refData) = log := by
  unfold deepReviewFinish
  dsimp only
  split <;> rfl

/-- Records built by the summary map callback carry no full text. -/
theorem summaryMap_fullText_none (result : String → Option SummaryData) :
    ∀ ids arts, summaryMap result ids = Except.ok arts → ∀ a ∈ arts, a.fullText = none := by
  intro ids
  induction ids with
  | nil =>
    intro arts h a ha
    simp only [summaryMap] at h
    cases h
    simp at ha
  | cons id ids ih =>
    intro arts h a ha
    simp only [summaryMap] at h
    cases hr : result id with
    | none => rw [hr] at h; cases h
    | some d =>
      rw [hr] at h
      cases hrec : summaryMap result ids with
      | error e => rw [hrec] at h; cases h
      | ok rest =>
        rw [hrec] at h
        cases h
        rcases List.mem_cons.mp ha with h1 | h2
        · subst h1; rfl
        · exact ih rest hrec a h2

/-- fetchSummary never populates full text. -/
theorem fetchSummary_fullText_none (ids : List String)
    (resp : Except Unit (String → Option SummaryData)) (arts : List Article)
    (h : (fetchSummary ids resp).2 = Except.ok arts) :
    ∀ a ∈ arts, a.fullText = none := by
  unfold fetchSummary at h
  by_cases hlen : ids.length = 0
  · rw [if_pos hlen] at h
    cases h
    simp
  · rw [if_neg hlen] at h
    cases resp with
    | error e => cases h
    | ok result => exact summaryMap_fullText_none result ids arts h

/-- Attaching abstracts to reference summaries leaves full text alone. -/
theorem buildRefData_fullText_none (arts : List Article) (m : List (String × String))
    (h : ∀ a ∈ arts, a.fullText = none) :
    ∀ r ∈ buildRefData arts m, r.fullText = none := by
  intro r hr
  rcases List.mem_map.mp hr with ⟨a, ha, rfl⟩
  exact h a ha

/-- Trace invariants of one try-block run: full text is attempted exactly
for the selected identifiers (or for none, when the abstract stage threw
first); the enriched reference ids are the first 8 of the reference
resolver's output (or none); reference records carry no full text. -/
theorem deepReviewTry_log (env : Env) (s : AppState) :
    ((runLogOf (deepReviewTry env s)).fullTextAttempted = [] ∨
      (runLogOf (deepReviewTry env s)).fullTextAttempted = s.selectedArticleIds) ∧
    ((runLogOf (deepReviewTry env s)).refIdsEnriched = [] ∨
      ∃ refIds,
        (fetchReferences s.selectedArticleIds (env.refsResp s.selectedArticleIds)).2 =
          Except.ok refIds ∧
        (runLogOf (deepReviewTry env s)).refIdsEnriched = refIds.take 8) ∧
    (∀ a ∈ (runLogOf (deepReviewTry env s)).refData, a.fullText = none) := by
  unfold deepReviewTry
  dsimp only
  split
  · exact ⟨Or.inl rfl, Or.inl rfl, by simp [runLogOf]⟩
  · rename_i abstracts habs
    split
    · exact ⟨Or.inr rfl, Or.inl rfl, by simp [runLogOf]⟩
    · rename_i refIds hrefs
      split
      · split
        · rename_i hpos e hsum
          exact ⟨Or.inr rfl, Or.inr ⟨refIds, hrefs, rfl⟩, by simp [runLogOf]⟩
        · rename_i hpos refSummaries hsum
          split
          · exact ⟨Or.inr rfl, Or.inr ⟨refIds, hrefs, rfl⟩, by simp [runLogOf]⟩
          · rename_i refAbs habs2
            rw [runLogOf_deepReviewFinish]
            refine ⟨Or.inr rfl, Or.inr ⟨refIds, hrefs, rfl⟩, ?_⟩
            exact buildRefData_fullText_none refSummaries refAbs
              (fetchSummary_fullText_none (refIds.take 8) _ refSummaries hsum)
      · rw [runLogOf_deepReviewFinish]
        exact ⟨Or.inr rfl, Or.inl rfl, by simp [runLogOf]⟩

/-- The second component of a run is the trace of its try block. -/
theorem handleDeepReview_log (env : Env) (s0 : AppState)
    (hsel : ¬ s0.selectedArticleIds.length = 0) :
    (handleDeepReview env s0).2 =
      runLogOf (deepReviewTry env { s0 with reviewStatus := .loading }) := by
  unfold handleDeepReview
  rw [if_neg hsel]
  dsimp only
  cases h : deepReviewTry env { s0 with reviewStatus := .loading } with
  | ok p => cases p; simp [runLogOf]
  | error p => cases p; simp [runLogOf]

/-- C10. In every run the orchestrator takes at most the first 8
identifiers produced by the reference resolver as the enriched reference
set, attempts full-text resolution only for selected identifiers (never
for a reference document), and every reference record it builds is only
lightly enriched: its full text is never populated. -/
theorem handleDeepReview_refcap_and_light (env : Env) (s0 : AppState) :
    (handleDeepReview env s0).2.refIdsEnriched.length ≤ 8 ∧
    (∀ p ∈ (handleDeepReview env s0).2.fullTextAttempted,
      p ∈ s0.selectedArticleIds) ∧
    (∀ a ∈ (handleDeepReview env s0).2.refData, a.fullText = none) ∧
    ((handleDeepReview env s0).2.refIdsEnriched = [] ∨
      ∃ refIds,
        (fetchReferences s0.selectedArticleIds (env.refsResp s0.selectedArticleIds)).2 =
          Except.ok refIds ∧
        (handleDeepReview env s0).2.refIdsEnriched = refIds.take 8) := by
  by_cases hsel : s0.selectedArticleIds.length = 0
  · unfold handleDeepReview
    rw [if_pos hsel]
    exact ⟨by simp, by simp, by simp, Or.inl rfl⟩
  · rw [handleDeepReview_log env s0 hsel]
    have hlog := deepReviewTry_log env { s0 with reviewStatus := .loading }
    have hsame : ({ s0 with reviewStatus := ProcessStatus.loading } : AppState).selectedArticleIds
        = s0.selectedArticleIds := rfl
    rw [hsame] at hlog
    obtain ⟨hft, href, hrd⟩ := hlog
    refine ⟨?_, ?_, hrd, href⟩
    · rcases href with h | ⟨refIds, _, h⟩
      · rw [h]; simp
      · rw [h]
        exact List.length_take_le 8 refIds
    · intro p hp
      rcases hft with h | h
      · rw [h] at hp; simp at hp
      · rw [h] at hp; exact hp

/-- C10 witness: the cap evaluated on a concrete run. -/
theorem handleDeepReview_refcap_and_light_witness :
    (handleDeepReview envAllErr demoState).2.refIdsEnriched.length ≤ 8 ∧
    (∀ a ∈ (handleDeepReview envAllErr demoState).2.refData, a.fullText = none) :=
  ⟨(handleDeepReview_refcap_and_light envAllErr demoState).1,
   (handleDeepReview_refcap_and_light envAllErr demoState).2.2.1⟩

/- ===== Map lemmas shared by several claims ===== -/

/-- Lookup after a JS-object assignment. -/
theorem alookup_upsert (m : List (String × String)) (k v key : String) :
    alookup (upsert m k v) key = if k = key then some v else alookup m key := by
  induction m with
  | nil =>
    simp [upsert, alookup]
  | cons p m ih =>
    obtain ⟨k0, v0⟩ := p
    simp only [upsert]
    by_cases h0 : k0 = k
    · rw [if_pos h0]
      subst h0
      simp only [alookup]
      by_cases hk : k0 = key <;> simp [hk]
    · rw [if_neg h0]
      simp only [alookup, ih]
      by_cases hk : k0 = key
      · subst hk
        rw [if_pos rfl, if_neg (fun h => h0 h.symm), if_pos rfl]
      · simp [hk]

/-- Assigning a fresh key appends the pair. -/
theorem upsert_of_lookup_none (m : List (String × String)) (k v : String)
    (h : alookup m k = none) : upsert m k v = m ++ [(k, v)] := by
  induction m with
  | nil => rfl
  | cons p m ih =>
    obtain ⟨k0, v0⟩ := p
    simp only [alookup] at h
    by_cases h0 : k0 = k
    · rw [if_pos h0] at h
      cases h
    · rw [if_neg h0] at h
      simp only [upsert, if_neg h0, List.cons_append, ih h]

/-- Lookup skips a prefix in which the key is absent. -/
theorem alookup_append_of_none (m1 m2 : List (String × String)) (k : String)
    (h : alookup m1 k = none) : alookup (m1 ++ m2) k = alookup m2 k := by
  induction m1 with
  | nil => rfl
  | cons p m1 ih =>
    obtain ⟨k0, v0⟩ := p
    simp only [alookup] at h ⊢
    by_cases h0 : k0 = k
    · rw [if_pos h0] at h
      cases h
    · rw [if_neg h0] at h ⊢
      exact ih h

/-- Membership after a JS-object assignment. -/
theorem mem_upsert (m : List (String × String)) (k v : String)
    (p : String × String) (h : p ∈ upsert m k v) : p ∈ m ∨ p = (k, v) := by
  induction m with
  | nil =>
    simp only [upsert] at h
    exact Or.inr (List.mem_singleton.mp h)
  | cons q m ih =>
    obtain ⟨k0, v0⟩ := q
    simp only [upsert] at h
    by_cases h0 : k0 = k
    · rw [if_pos h0] at h
      subst h0
      rcases List.mem_cons.mp h with h1 | h2
      · exact Or.inr h1
      · exact Or.inl (List.mem_cons_of_mem _ h2)
    · rw [if_neg h0] at h
      rcases List.mem_cons.mp h with h1 | h2
      · exact Or.inl (h1 ▸ List.mem_cons_self _ _)
      · rcases ih h2 with h3 | h4
        · exact Or.inl (List.mem_cons_of_mem _ h3)
        · exact Or.inr h4

/-- The summary map callback reproduces the input identifiers, in order,
as both id and pmid of the produced records. -/
theorem summaryMap_ids (result : String → Option SummaryData) :
    ∀ ids arts, summaryMap result ids = Except.ok arts →
      arts.map Article.id = ids ∧ arts.map Article.pmid = ids := by
  intro ids
  induction ids with
  | nil =>
    intro arts h
    simp only [summaryMap] at h
    cases h
    exact ⟨rfl, rfl⟩
  | cons id ids ih =>
    intro arts h
    simp only [summaryMap] at h
    cases hr : result id with
    | none => rw [hr] at h; cases h
    | some d =>
      rw [hr] at h
      cases hrec : summaryMap result ids with
      | error e => rw [hrec] at h; cases h
      | ok rest =>
        rw [hrec] at h
        cases h
        obtain ⟨h1, h2⟩ := ih rest hrec
        exact ⟨by simp [mkSummaryArticle, h1], by simp [mkSummaryArticle, h2]⟩

/-- When the provider answers every requested identifier the summary map
succeeds and yields one record per identifier, in input order. -/
theorem summaryMap_ok_of_covered (result : String → Option SummaryData) :
    ∀ ids, (∀ id ∈ ids, (result id).isSome) →
      ∃ arts, summaryMap result ids = Except.ok arts ∧ arts.map Article.id = ids := by
  intro ids
  induction ids with
  | nil => intro _; exact ⟨[], rfl, rfl⟩
  | cons id ids ih =>
    intro h
    rcases Option.isSome_iff_exists.mp (h id (List.mem_cons_self id ids)) with ⟨d, hd⟩
    rcases ih (fun x hx => h x (List.mem_cons_of_mem _ hx)) with ⟨arts, harts, hids⟩
    refine ⟨mkSummaryArticle id d :: arts, ?_, ?_⟩
    · simp only [summaryMap, hd, harts]
    · simp [mkSummaryArticle, hids]

/-- Keys of the abstract-map fold: fresh, duplicate-free response pmids are
appended in response order. -/
theorem absFold_keys :
    ∀ (nodes : List ArticleNode) (acc : List (String × String)),
      (nodes.map ArticleNode.pmid).Nodup →
      (∀ n ∈ nodes, alookup acc n.pmid = none) →
      (nodes.foldl (fun results node => upsert results node.pmid (nodeAbstract node)) acc).map
          Prod.fst
        = acc.map Prod.fst ++ nodes.map ArticleNode.pmid := by
  intro nodes
  induction nodes with
  | nil => intro acc _ _; simp
  | cons n nodes ih =>
    intro acc hnd hfresh
    simp only [List.map_cons, List.nodup_cons] at hnd
    obtain ⟨hnotin, hnd'⟩ := hnd
    have hkfresh : alookup acc n.pmid = none := hfresh n (List.mem_cons_self _ _)
    simp only [List.foldl_cons, upsert_of_lookup_none acc n.pmid (nodeAbstract n) hkfresh]
    have hfresh' : ∀ m ∈ nodes, alookup (acc ++ [(n.pmid, nodeAbstract n)]) m.pmid = none := by
      intro m hm
      rw [alookup_append_of_none _ _ _ (hfresh m (List.mem_cons_of_mem _ hm))]
      have hne : ¬ n.pmid = m.pmid := by
        intro hcontra
        exact hnotin (hcontra ▸ List.mem_map_of_mem ArticleNode.pmid hm)
      simp [alookup, hne]
    rw [ih (acc ++ [(n.pmid, nodeAbstract n)]) hnd' hfresh']
    simp

/-- C2 counterexample. The claim says fetchAbstracts returns exactly one
entry per input identifier even when the provider omits some. With input
list consisting of identifier 1 and a response containing no document
nodes, the returned mapping is empty: identifier 1 is silently dropped
(the mapping is keyed on response pmids, not on the input list). -/
theorem fetchAbstracts_drops_missing_id :
    (fetchAbstracts ["1"] (Except.ok [])).2 = Except.ok ([] : List (String × String)) ∧
    alookup [] "1" = none :=
  ⟨rfl, rfl⟩

/-- C2 amended: when the summary provider answers every requested
identifier, fetchSummary returns exactly one record per input identifier
in input order; when the abstract response carries exactly one document
node per input identifier (distinct, in input order), fetchAbstracts
returns a mapping with exactly one entry per input identifier. -/
theorem accessors_one_entry_per_id (ids : List String)
    (result : String → Option SummaryData) (nodes : List ArticleNode)
    (hcov : ∀ id ∈ ids, (result id).isSome)
    (hnodes : nodes.map ArticleNode.pmid = ids)
    (hnd : ids.Nodup) :
    (∃ arts, (fetchSummary ids (Except.ok result)).2 = Except.ok arts ∧
      arts.map Article.id = ids) ∧
    (∃ m, (fetchAbstracts ids (Except.ok nodes)).2 = Except.ok m ∧
      m.map Prod.fst = ids) := by
  constructor
  · by_cases hlen : ids.length = 0
    · have h0 : ids = [] := List.length_eq_zero.mp hlen
      subst h0
      exact ⟨[], rfl, rfl⟩
    · rcases summaryMap_ok_of_covered result ids hcov with ⟨arts, h, hid⟩
      refine ⟨arts, ?_, hid⟩
      unfold fetchSummary
      rw [if_neg hlen]
      exact h
  · by_cases hlen : ids.length = 0
    · have h0 : ids = [] := List.length_eq_zero.mp hlen
      subst h0
      have hn : nodes = [] := List.map_eq_nil_iff.mp hnodes
      subst hn
      exact ⟨[], rfl, rfl⟩
    · refine ⟨buildAbsMap nodes, ?_, ?_⟩
      · unfold fetchAbstracts
        rw [if_neg hlen]
      · have hkeys := absFold_keys nodes []
          (by rw [hnodes]; exact hnd) (by intro n _; rfl)
        simpa [buildAbsMap, hnodes] using hkeys

/-- C2 amended witness: one identifier, a covering provider, one node. -/
theorem accessors_one_entry_per_id_witness :
    (∃ arts, (fetchSummary ["1"] (Except.ok demoSummaryResult)).2 = Except.ok arts ∧
      arts.map Article.id = ["1"]) ∧
    (∃ m, (fetchAbstracts ["1"] (Except.ok demoNodes)).2 = Except.ok m ∧
      m.map Prod.fst = ["1"]) :=
  accessors_one_entry_per_id ["1"] demoSummaryResult demoNodes
    (by intro id _; rfl) (by rfl) (by simp)

/-- Every value stored by the abstract fold comes from some response node
as that node's rendered abstract. -/
theorem absFold_lookup :
    ∀ (nodes : List ArticleNode) (acc : List (String × String)) (k v : String),
      alookup (nodes.foldl (fun results node => upsert results node.pmid (nodeAbstract node)) acc)
          k = some v →
      (∃ n ∈ nodes, n.pmid = k ∧ v = nodeAbstract n) ∨ alookup acc k = some v := by
  intro nodes
  induction nodes with
  | nil => intro acc k v h; exact Or.inr h
  | cons n nodes ih =>
    intro acc k v h
    simp only [List.foldl_cons] at h
    rcases ih _ k v h with h1 | h2
    · rcases h1 with ⟨m, hm, hk, hv⟩
      exact Or.inl ⟨m, List.mem_cons_of_mem _ hm, hk, hv⟩
    · rw [alookup_upsert] at h2
      by_cases hk : n.pmid = k
      · rw [if_pos hk] at h2
        cases h2
        exact Or.inl ⟨n, List.mem_cons_self _ _, hk, rfl⟩
      · rw [if_neg hk] at h2
        exact Or.inr h2

/-- The rendered abstract is never the empty string. -/
theorem nodeAbstract_ne_empty (n : ArticleNode) : nodeAbstract n ≠ "" := by
  unfold nodeAbstract jsOrString
  split
  · decide
  · assumption

/-- C8. Every value in the mapping returned by fetchAbstracts is the
rendering of some response node: its labeled text segments concatenated in
document order with bracketed label when present, then trimmed
(nodeAbstract); the value is never the empty string, and when the
node's segments trim to empty the value is the explicit unavailable
sentinel. -/
theorem fetchAbstracts_value_shape (ids : List String) (nodes : List ArticleNode)
    (m : List (String × String)) (k v : String)
    (hok : (fetchAbstracts ids (Except.ok nodes)).2 = Except.ok m)
    (hkv : alookup m k = some v) :
    v ≠ "" ∧
    ∃ n ∈ nodes, n.pmid = k ∧ v = nodeAbstract n ∧
      (jsTrim (n.segs.foldl renderSeg "") = "" → v = "No abstract available.") := by
  unfold fetchAbstracts at hok
  by_cases hlen : ids.length = 0
  · rw [if_pos hlen] at hok
    cases hok
    cases hkv
  · rw [if_neg hlen] at hok
    cases hok
    rcases absFold_lookup nodes [] k v hkv with ⟨n, hn, hk, hv⟩ | h2
    · refine ⟨hv ▸ nodeAbstract_ne_empty n, n, hn, hk, hv, ?_⟩
      intro hempty
      rw [hv]
      unfold nodeAbstract jsOrString
      rw [if_pos hempty]
    · cases h2

/-- C8 witness: one node with a labeled BACKGROUND segment. -/
theorem fetchAbstracts_value_shape_witness :
    ("[BACKGROUND] text" : String) ≠ "" ∧
    ∃ n ∈ demoNodes, n.pmid = "1" ∧ ("[BACKGROUND] text" : String) = nodeAbstract n ∧
      (jsTrim (n.segs.foldl renderSeg "") = "" →
        ("[BACKGROUND] text" : String) = "No abstract available.") :=
  fetchAbstracts_value_shape ["1"] demoNodes (buildAbsMap demoNodes) "1"
    "[BACKGROUND] text" rfl (by decide)

/- ===== Reference resolver lemmas ===== -/

/-- The raw contribution step factors through the empty accumulator. -/
theorem contribDb_acc (db : RefDb) (acc : List String) :
    contribDb acc db = acc ++ contribDb [] db := by
  unfold contribDb
  by_cases h : db.linkname = "pubmed_pubmed_refs"
  · rw [if_pos h, if_pos h]
    cases db.links <;> simp
  · rw [if_neg h, if_neg h]
    simp

/-- Folding raw contributions factors through the empty accumulator. -/
theorem contribFold_acc (dbs : List RefDb) :
    ∀ acc, dbs.foldl contribDb acc = acc ++ dbs.foldl contribDb [] := by
  induction dbs with
  | nil => intro acc; simp
  | cons db dbs ih =>
    intro acc
    simp only [List.foldl_cons]
    rw [ih (contribDb acc db), ih (contribDb [] db), contribDb_acc db acc,
      List.append_assoc]

/-- One db step of the set fold equals folding its raw contribution into
the set. -/
theorem addLinks_eq (acc : List String) (db : RefDb) :
    addLinks acc db = (contribDb [] db).foldl addToSet acc := by
  unfold addLinks contribDb
  by_cases h : db.linkname = "pubmed_pubmed_refs"
  · rw [if_pos h, if_pos h]
    cases db.links <;> simp
  · rw [if_neg h, if_neg h]
    simp

/-- The db fold equals folding the concatenated raw contributions. -/
theorem dbsFold_eq (dbs : List RefDb) :
    ∀ acc, dbs.foldl addLinks acc = (dbs.foldl contribDb []).foldl addToSet acc := by
  induction dbs with
  | nil => intro acc; simp
  | cons db dbs ih =>
    intro acc
    simp only [List.foldl_cons]
    rw [ih (addLinks acc db), addLinks_eq, contribFold_acc dbs (contribDb [] db),
      List.foldl_append]

/-- One linkset step of the set fold equals folding its contribution. -/
theorem addLinkSet_eq (acc : List String) (ls : RefLinkSet) :
    addLinkSet acc ls = (sourceRefContrib ls).foldl addToSet acc := by
  unfold addLinkSet sourceRefContrib
  cases ls.linksetdbs with
  | none => simp
  | some dbs => exact dbsFold_eq dbs acc

/-- The linkset fold equals folding all flattened contributions. -/
theorem lssFold_eq (lss : List RefLinkSet) :
    ∀ acc, lss.foldl addLinkSet acc =
      ((lss.map sourceRefContrib).flatten).foldl addToSet acc := by
  induction lss with
  | nil => intro acc; simp
  | cons ls lss ih =>
    intro acc
    simp only [List.foldl_cons, List.map_cons, List.flatten_cons, List.foldl_append]
    rw [ih (addLinkSet acc ls), addLinkSet_eq]

/-- collectRefs is exactly the deduplication of the per-source capped
contributions. -/
theorem collectRefs_eq (data : ElinkRefData) :
    collectRefs data = dedup (allRefContribs data) := by
  unfold collectRefs dedup allRefContribs
  cases data.linksets with
  | none => simp [jsArr]
  | some lss =>
    simp only [jsArr]
    exact lssFold_eq lss []

/-- Inserting into the set keeps it duplicate-free. -/
theorem addToSet_nodup (acc : List String) (x : String) (h : acc.Nodup) :
    (addToSet acc x).Nodup := by
  unfold addToSet
  by_cases hx : acc.contains x = true
  · rw [if_pos hx]
    exact h
  · rw [if_neg hx]
    have hmem : x ∉ acc := fun hm => hx (List.elem_eq_true_of_mem hm)
    simp [List.nodup_append, h, hmem]

/-- Set folds keep the accumulator duplicate-free. -/
theorem foldl_addToSet_nodup (l : List String) :
    ∀ acc, acc.Nodup → (l.foldl addToSet acc).Nodup := by
  induction l with
  | nil => intro acc h; exact h
  | cons x l ih =>
    intro acc h
    simp only [List.foldl_cons]
    exact ih _ (addToSet_nodup acc x h)

/-- Deduplication yields a duplicate-free list. -/
theorem dedup_nodup (l : List String) : (dedup l).Nodup :=
  foldl_addToSet_nodup l [] List.nodup_nil

/-- A db fold with no reference dbs contributes nothing. -/
theorem contribFold_no_match (dbs : List RefDb)
    (h : (dbs.filter (fun db => db.linkname = "pubmed_pubmed_refs")).length = 0) :
    ∀ acc, dbs.foldl contribDb acc = acc := by
  induction dbs with
  | nil => intro acc; rfl
  | cons db dbs ih =>
    intro acc
    simp only [List.filter_cons] at h
    by_cases hdb : db.linkname = "pubmed_pubmed_refs"
    · rw [if_pos (by simpa using hdb)] at h
      simp at h
    · rw [if_neg (by simpa using hdb)] at h
      simp only [List.foldl_cons]
      rw [show contribDb acc db = acc by unfold contribDb; rw [if_neg hdb]]
      exact ih h acc

/-- With at most one reference db, the raw contribution holds at most 3
links. -/
theorem contribFold_length_le (dbs : List RefDb)
    (h : (dbs.filter (fun db => db.linkname = "pubmed_pubmed_refs")).length ≤ 1) :
    (dbs.foldl contribDb []).length ≤ 3 := by
  induction dbs with
  | nil => simp
  | cons db dbs ih =>
    simp only [List.filter_cons] at h
    by_cases hdb : db.linkname = "pubmed_pubmed_refs"
    · rw [if_pos (by simpa using hdb)] at h
      simp only [List.length_cons] at h
      have h0 : (dbs.filter (fun db => db.linkname = "pubmed_pubmed_refs")).length = 0 := by
        omega
      simp only [List.foldl_cons]
      rw [contribFold_no_match dbs h0]
      unfold contribDb
      rw [if_pos hdb]
      cases db.links with
      | none => simp
      | some links =>
        simp only [List.nil_append]
        exact List.length_take_le 3 links
    · rw [if_neg (by simpa using hdb)] at h
      simp only [List.foldl_cons]
      rw [show contribDb [] db = [] by unfold contribDb; rw [if_neg hdb]]
      exact ih h

/-- C6 counterexample. The claim bounds each source document's
contribution by 3 for every provider response. The code caps per
linksetdb, not per source: a response whose single source linkset carries
two dbs with the reference linkname contributes 6 references to the
output. -/
theorem fetchReferences_single_source_exceeds_cap :
    (fetchReferences ["src"] (Except.ok refsTwoDbData)).2 =
      Except.ok ["1", "2", "3", "4", "5", "6"] ∧
    (["1", "2", "3", "4", "5", "6"] : List String).length > 3 :=
  ⟨rfl, by decide⟩

/-- C6 amended: the output of fetchReferences is exactly the
first-occurrence deduplication of the per-source capped contributions
(so a reference cited by several sources appears once), it never contains
duplicates, and a source linkset carrying at most one db with the
reference linkname contributes at most 3 raw references. -/
theorem fetchReferences_dedup_and_cap :
    (∀ (pmids : List String) (data : ElinkRefData), ¬ pmids.length = 0 →
      (fetchReferences pmids (Except.ok data)).2 = Except.ok (dedup (allRefContribs data))) ∧
    (∀ (pmids : List String) (resp : Except Unit ElinkRefData) (refIds : List String),
      (fetchReferences pmids resp).2 = Except.ok refIds → refIds.Nodup) ∧
    (∀ ls : RefLinkSet, numRefDbs ls ≤ 1 → (sourceRefContrib ls).length ≤ 3) := by
  refine ⟨?_, ?_, ?_⟩
  · intro pmids data h
    unfold fetchReferences
    rw [if_neg h]
    dsimp only
    rw [collectRefs_eq]
  · intro pmids resp refIds h
    unfold fetchReferences at h
    by_cases hlen : pmids.length = 0
    · rw [if_pos hlen] at h
      cases h
      exact List.nodup_nil
    · rw [if_neg hlen] at h
      cases resp with
      | error e => cases h
      | ok data =>
        cases h
        rw [collectRefs_eq]
        exact dedup_nodup _
  · intro ls h
    unfold sourceRefContrib
    unfold numRefDbs at h
    cases hd : ls.linksetdbs with
    | none => simp
    | some dbs =>
      rw [hd] at h
      exact contribFold_length_le dbs h

/-- C6 amended witness: a non-empty request over a response with one
reference db of five links. -/
theorem fetchReferences_dedup_and_cap_witness :
    (fetchReferences ["src"] (Except.ok refsDemoData)).2 =
      Except.ok (dedup (allRefContribs refsDemoData)) ∧
    (sourceRefContrib refsDemoLs).length ≤ 3 :=
  ⟨fetchReferences_dedup_and_cap.1 ["src"] refsDemoData (by decide),
   fetchReferences_dedup_and_cap.2.2 refsDemoLs (by decide)⟩

/- ===== Identity-correspondence lemmas ===== -/

/-- Entries of the full-text loop map record exactly what the resolver
returned for the same pmid. -/
theorem fullTextFold_mem (ft : String → Option String) :
    ∀ (ids : List String) (acc : List (String × String)) (p t : String),
      (p, t) ∈ ids.foldl
        (fun m pmid =>
          match ft pmid with
          | some text => if text = "" then m else upsert m pmid text
          | none => m) acc →
      (p, t) ∈ acc ∨ ft p = some t := by
  intro ids
  induction ids with
  | nil => intro acc p t h; exact Or.inl h
  | cons pmid ids ih =>
    intro acc p t h
    simp only [List.foldl_cons] at h
    rcases ih _ p t h with h1 | h2
    · cases hft : ft pmid with
      | none => rw [hft] at h1; exact Or.inl h1
      | some text =>
        rw [hft] at h1
        dsimp only at h1
        by_cases htext : text = ""
        · rw [if_pos htext] at h1
          exact Or.inl h1
        · rw [if_neg htext] at h1
          rcases mem_upsert _ _ _ _ h1 with h3 | h4
          · exact Or.inl h3
          · simp only [Prod.mk.injEq] at h4
            obtain ⟨hp, ht⟩ := h4
            subst hp
            subst ht
            exact Or.inr hft
    · exact Or.inr h2

/-- Each merged record comes from a selected article and carries the
abstract and full text looked up under that article's own identifier. -/
theorem mergeSelected_mem (articles : List Article) (sel : List String)
    (abstracts fullTexts : List (String × String)) (a' : Article)
    (h : a' ∈ mergeSelected articles sel abstracts fullTexts) :
    ∃ a, a ∈ articles ∧ sel.contains a.id ∧ a'.id = a.id ∧ a'.pmid = a.pmid ∧
      a'.abstract = some (jsIndexOr abstracts a.id "") ∧
      a'.fullText = jsIndexOrNull fullTexts a.id := by
  unfold mergeSelected at h
  rcases List.mem_map.mp h with ⟨a, ha, rfl⟩
  have hfil := List.mem_filter.mp ha
  exact ⟨a, hfil.1, hfil.2, rfl, rfl, rfl, rfl⟩

/-- C7. Identity correspondence across stages: fetchSummary carries each
input identifier unchanged as both id and pmid, in input order; the
orchestrator merge attaches to each selected record exactly the abstract
and full text looked up under that record's own identifier; and every
entry of the full-text loop map is precisely what fetchFullText returned
for that same pmid. The identifier is never rewritten by any stage. -/
theorem identity_preserved :
    (∀ ids result arts,
      (fetchSummary ids (Except.ok result)).2 = Except.ok arts →
      arts.map Article.id = ids ∧ arts.map Article.pmid = ids) ∧
    (∀ articles sel abstracts fullTexts a',
      a' ∈ mergeSelected articles sel abstracts fullTexts →
      ∃ a, a ∈ articles ∧ sel.contains a.id ∧ a'.id = a.id ∧ a'.pmid = a.pmid ∧
        a'.abstract = some (jsIndexOr abstracts a.id "") ∧
        a'.fullText = jsIndexOrNull fullTexts a.id) ∧
    (∀ ft ids p t, (p, t) ∈ buildFullTexts ft ids → ft p = some t) := by
  refine ⟨?_, mergeSelected_mem, ?_⟩
  · intro ids result arts h
    by_cases hlen : ids.length = 0
    · have h0 : ids = [] := List.length_eq_zero.mp hlen
      subst h0
      unfold fetchSummary at h
      cases h
      exact ⟨rfl, rfl⟩
    · unfold fetchSummary at h
      rw [if_neg hlen] at h
      exact summaryMap_ids result ids arts h
  · intro ft ids p t h
    unfold buildFullTexts at h
    rcases fullTextFold_mem ft ids [] p t h with h1 | h2
    · cases h1
    · exact h2

/-- C7 witness: one selected article, its abstract and full text rejoined
under its own identifier. -/
theorem identity_preserved_witness :
    (List.map Article.id [demoArticle] = ["1"] ∧
     List.map Article.pmid [demoArticle] = ["1"]) ∧
    (∃ a, a ∈ [demoArticle] ∧ (["1"] : List String).contains a.id ∧
      demoMerged.id = a.id ∧ demoMerged.pmid = a.pmid ∧
      demoMerged.abstract = some (jsIndexOr [("1", "abs")] a.id "") ∧
      demoMerged.fullText = jsIndexOrNull [] a.id) ∧
    ((fun _ => some "t") "1" = some ("t" : String)) :=
  ⟨identity_preserved.1 ["1"] demoSummaryResult [demoArticle] rfl,
   identity_preserved.2.1 [demoArticle] ["1"] [("1", "abs")] [] demoMerged (by decide),
   identity_preserved.2.2 (fun _ => some "t") ["1"] "1" "t" (by decide)⟩
